import Mathlib

/-!
Verification of the arXiv download-and-normalize pipeline
(`src/arxiv_client.py`, `src/file_processor.py`, `src/performance.py`,
`src/scraper.py`) against its natural-language specification.

The Python code is shallowly embedded: every filesystem- or network-effect
is made explicit, either as an oracle field in an environment structure
(what a download returns, whether a path exists, whether an individual
filesystem call raises) or as an explicit field of a result structure
(which artifact files were created, whether the source archive was
deleted).  Strings are modelled by `String`, byte sequences by `List Nat`,
and Python's per-call `try/except` blocks by explicit branching on the
corresponding environment flag.
-/

/-! ## String helpers (Python `str`/`bytes`/`pathlib` primitives) -/

/-- Python `s.endswith(t)`: `t` is a suffix of `s` (on the character list). -/
def strEndsWith (s t : String) : Bool := decide (t.data <:+ s.data)

/-- Python `s.lower()`, character-wise (the filenames involved are ASCII). -/
def strToLower (s : String) : String := ⟨s.data.map Char.toLower⟩

/-- Split a character list at its LAST `'.'`: returns
`(characters before it, characters after it)`, or `none` if no dot occurs. -/
def splitAtLastDot : List Char → Option (List Char × List Char)
  | [] => none
  | c :: cs =>
    match splitAtLastDot cs with
    | some (pre, post) => some (c :: pre, post)
    | none => if c = '.' then some ([], cs) else none

/-- Python `pathlib.Path(name).suffix`: the final extension including the
dot, empty for names with no dot, a leading dot only, or a trailing dot. -/
def suffixOf (name : String) : String :=
  match splitAtLastDot name.data with
  | some (pre, post) => if pre ≠ [] ∧ post ≠ [] then ⟨'.' :: post⟩ else ""
  | none => ""

/-- Python `pathlib.Path(name).stem` as used on `x.gz` names: the name with
its final suffix removed (the whole name when `suffixOf` is empty). -/
def stemOf (name : String) : String :=
  match splitAtLastDot name.data with
  | some (pre, post) => if pre ≠ [] ∧ post ≠ [] then ⟨pre⟩ else name
  | none => name

/-- The lower-cased final extension of a file name (including the dot),
`""` when the name has no dot.  Used to state the figure-set property. -/
def extOf (name : String) : String :=
  match splitAtLastDot name.data with
  | some (_, post) => ⟨'.' :: post.map Char.toLower⟩
  | none => ""

/-! ## Performance monitor (`src/performance.py`)

`PerformanceMonitor.stats` is a Python dict whose values are counters
(ints) except for the two nested dicts `stage_times` and
`stage_memory_peak`.  `increment_stat` / `incr_error` guard on
`key in self.stats` and otherwise do `self.stats[key] += value`, which
raises `TypeError` on a dict-valued entry; that possible raise is modelled
by an `Option` result (`none` = exception). -/

/-- A value stored in the monitor's `stats` dict. -/
inductive StatValue where
  | counter (n : Int)
  | table (entries : List (String × Int))
deriving DecidableEq, Repr

/-- The `stats` dict: an association list with the dict's key order. -/
abbrev Stats := List (String × StatValue)

/-- `PerformanceMonitor.__init__` (performance.py lines 30-41). -/
def initialStats : Stats :=
  [("total_papers", .counter 0),
   ("successful_papers", .counter 0),
   ("failed_papers", .counter 0),
   ("total_references", .counter 0),
   ("successful_references", .counter 0),
   ("failed_references", .counter 0),
   ("stage_times", .table []),
   ("stage_memory_peak", .table []),
   ("references_files_written", .counter 0),
   ("metadata_files_written", .counter 0)]

/-- `self.stats[key] += value` on one entry; `none` models the `TypeError`
Python raises when the entry is a nested dict. -/
def addToStat : StatValue → Int → Option StatValue
  | .counter n, v => some (.counter (n + v))
  | .table _, _ => none

/-- `increment_stat` (performance.py lines 88-91):
`if stat_name in self.stats: self.stats[stat_name] += value`.
An absent key leaves the dict unchanged and raises nothing. -/
def increment_stat (stats : Stats) (key : String) (value : Int) : Option Stats :=
  match stats with
  | [] => some []
  | (k, v) :: rest =>
    if k = key then
      (addToStat v value).map (fun v2 => (k, v2) :: rest)
    else
      (increment_stat rest key value).map (fun r => (k, v) :: r)

/-- `incr_error` (performance.py lines 84-86): its body is the same
guard-and-add as `increment_stat`, with `count` in place of `value`. -/
def incr_error (stats : Stats) (key : String) (count : Int) : Option Stats :=
  increment_stat stats key count

/-- An `increment_stat` call whose key is absent returns the dict unchanged. -/
theorem increment_stat_absent (stats : Stats) (key : String) (value : Int)
    (h : key ∉ stats.map Prod.fst) : increment_stat stats key value = some stats := by
  induction stats with
  | nil => rfl
  | cons kv rest ih =>
    simp only [List.map_cons, List.mem_cons] at h
    push_neg at h
    simp only [increment_stat]
    rw [if_neg (by exact fun hk => h.1 hk.symm)]
    rw [ih h.2]
    rfl

/-- A successful `increment_stat` call never changes the key set. -/
theorem increment_stat_keys (stats stats' : Stats) (key : String) (value : Int)
    (h : increment_stat stats key value = some stats') :
    stats'.map Prod.fst = stats.map Prod.fst := by
  induction stats generalizing stats' with
  | nil =>
    simp only [increment_stat, Option.some.injEq] at h
    subst h; rfl
  | cons kv rest ih =>
    simp only [increment_stat] at h
    by_cases hk : kv.1 = key
    · rw [if_pos hk] at h
      rcases Option.map_eq_some'.mp h with ⟨v2, _, hv2⟩
      subst hv2
      simp
    · rw [if_neg hk] at h
      rcases Option.map_eq_some'.mp h with ⟨r, hr, hcons⟩
      subst hcons
      simp [ih r hr]

/-- C10: the monitor's counter-key set is fixed at construction: the keys
used by the pipeline's extra telemetry (`skipped_papers`,
`total_size_bytes`, `extraction_failures`, `skipped_bib_count`) are not in
the initial dict, and any `increment_stat` / `incr_error` call with a key
absent from the dict leaves it entirely unchanged and raises no error,
while a successful call with any key never grows the key set: such
increments are silently dropped. -/
theorem monitor_unknown_keys_dropped :
    (∀ key, key ∈ ["skipped_papers", "total_size_bytes",
        "extraction_failures", "skipped_bib_count"] →
      key ∉ initialStats.map Prod.fst)
    ∧ (∀ (stats : Stats) key value, key ∉ stats.map Prod.fst →
        increment_stat stats key value = some stats)
    ∧ (∀ (stats : Stats) key count, key ∉ stats.map Prod.fst →
        incr_error stats key count = some stats)
    ∧ (∀ (stats stats' : Stats) key value,
        increment_stat stats key value = some stats' →
        stats'.map Prod.fst = stats.map Prod.fst) := by
  refine ⟨?_, ?_, ?_, ?_⟩
  · intro key hmem
    fin_cases hmem <;> decide
  · exact increment_stat_absent
  · intro stats key count h
    exact increment_stat_absent stats key count h
  · exact fun stats stats' key value h => increment_stat_keys stats stats' key value h

/-- Witness for `monitor_unknown_keys_dropped` at concrete inputs:
incrementing `skipped_papers` or `extraction_failures` on the freshly
constructed dict drops the update. -/
theorem monitor_unknown_keys_dropped_witness :
    increment_stat initialStats "skipped_papers" 1 = some initialStats
    ∧ incr_error initialStats "extraction_failures" 1 = some initialStats := by
  constructor
  · exact monitor_unknown_keys_dropped.2.1 initialStats "skipped_papers" 1
      (monitor_unknown_keys_dropped.1 "skipped_papers" (by decide))
  · exact monitor_unknown_keys_dropped.2.2.1 initialStats "extraction_failures" 1
      (monitor_unknown_keys_dropped.1 "extraction_failures" (by decide))

/-! ## File trees and the leaf collectors (`src/file_processor.py`)

An extracted source tree is modelled as a list of files, each with the
directory components of its path relative to the walked root, its base
name, and its content bytes (`os.path.getsize` = `content.length`).
`os.walk` visits exactly these files.  Individual-file filesystem
failures (`os.remove`, `shutil.copy2`, `os.path.getsize`), which the code
catches per file and skips, are modelled by failure predicates in an
environment. -/

/-- One file of a walked directory tree. -/
structure TreeFile where
  dirs : List String
  name : String
  content : List Nat
deriving DecidableEq, Repr

/-- Which per-file filesystem calls fail (each is caught per file). -/
structure FsEnv where
  removeFails : TreeFile → Bool
  copyFails : TreeFile → Bool
  sizeCheckFails : TreeFile → Bool

/-- The environment where no individual filesystem call fails. -/
def benignFs : FsEnv := ⟨fun _ => false, fun _ => false, fun _ => false⟩

/-- The fixed figure-format set (file_processor.py line 172). -/
def figureExtensions : List String :=
  [".png", ".jpg", ".jpeg", ".pdf", ".eps", ".ps", ".svg", ".gif", ".tif", ".tiff"]

/-- `any(file.lower().endswith(ext) for ext in figure_extensions)`
(file_processor.py line 178). -/
def isFigureName (name : String) : Bool :=
  figureExtensions.any (fun ext => strEndsWith (strToLower name) ext)

/-- `remove_figures` (file_processor.py lines 162-191): walks the tree,
removes every figure-extension file (case-insensitive suffix match);
a failing `getsize`/`remove` is logged and skipped.  Returns the
remaining tree, the number of files removed and the bytes freed. -/
def remove_figures (env : FsEnv) (tree : List TreeFile) :
    List TreeFile × Nat × Nat :=
  let removed := tree.filter (fun f => isFigureName f.name && !env.removeFails f)
  (tree.filter (fun f => !(isFigureName f.name && !env.removeFails f)),
   removed.length,
   (removed.map (fun f => f.content.length)).sum)

/-- `copy_tex_and_bib_files` (file_processor.py lines 213-271): collects
every file whose name ends in `.tex` or `.bib`; copies each to the same
relative path under the destination (byte-identical, `shutil.copy2`),
except that when `skip_large_bib` is set a `.bib` file whose size check
succeeds and exceeds `bib_size_threshold` is skipped and counted
separately; a failing copy is logged and skipped.  Returns the
destination tree, the copied count and the skipped-large-bib count. -/
def copy_tex_and_bib_files (env : FsEnv) (tree : List TreeFile)
    (skip_large_bib : Bool) (bib_size_threshold : Nat) :
    List TreeFile × Nat × Nat :=
  let all_files := tree.filter
    (fun f => strEndsWith f.name ".tex" || strEndsWith f.name ".bib")
  let skippedBib := all_files.filter (fun f =>
    !env.copyFails f && (skip_large_bib && strEndsWith f.name ".bib"
      && !env.sizeCheckFails f && decide (f.content.length > bib_size_threshold)))
  let copied := all_files.filter (fun f =>
    !env.copyFails f && !(skip_large_bib && strEndsWith f.name ".bib"
      && !env.sizeCheckFails f && decide (f.content.length > bib_size_threshold)))
  (copied, copied.length, skippedBib.length)

/-- `splitAtLastDot` really splits at a dot. -/
theorem splitAtLastDot_eq (l pre post : List Char)
    (h : splitAtLastDot l = some (pre, post)) : l = pre ++ '.' :: post := by
  induction l generalizing pre post with
  | nil => simp [splitAtLastDot] at h
  | cons c cs ih =>
    simp only [splitAtLastDot] at h
    cases hs : splitAtLastDot cs with
    | some pp =>
      rw [hs] at h
      obtain ⟨p1, p2⟩ := pp
      simp only [Option.some.injEq, Prod.mk.injEq] at h
      obtain ⟨h1, h2⟩ := h
      subst h1; subst h2
      simp [ih p1 p2 hs]
    | none =>
      rw [hs] at h
      by_cases hc : c = '.'
      · rw [if_pos hc] at h
        simp only [Option.some.injEq, Prod.mk.injEq] at h
        obtain ⟨h1, h2⟩ := h
        subst h1; subst h2
        simp [hc]
      · rw [if_neg hc] at h
        simp at h


/-- The last character of a nonempty suffix is the last character of the
whole list. -/
theorem lastChar_of_suffix (l s : List Char) (c : Char)
    (hl : l.getLast? = some c) (hsuf : l <:+ s) : s.getLast? = some c := by
  obtain ⟨u, hu⟩ := hsuf
  rw [← hu]
  cases l with
  | nil => simp at hl
  | cons x xs =>
    rw [List.getLast?_append_of_ne_nil _ (by simp)]
    exact hl

/-- `s.endswith(e)` is false whenever the two last characters differ. -/
theorem strEndsWith_false_of_lastChar (s e : String) (cs ce : Char)
    (hs : s.data.getLast? = some cs) (he : e.data.getLast? = some ce)
    (hne : ce ≠ cs) : strEndsWith s e = false := by
  unfold strEndsWith
  apply decide_eq_false
  intro hsuf
  have := lastChar_of_suffix e.data s.data ce he hsuf
  rw [hs] at this
  exact hne (Option.some.inj this.symm)

/-- A file name whose (lower-cased, last-dot) extension is nonempty has
that extension as a suffix of its lower-cased form. -/
theorem extOf_isSuffix (name : String) (pre post : List Char)
    (hs : splitAtLastDot name.data = some (pre, post)) :
    ('.' :: post.map Char.toLower) <:+ (strToLower name).data := by
  have hn : name.data = pre ++ '.' :: post := splitAtLastDot_eq _ _ _ hs
  refine ⟨pre.map Char.toLower, ?_⟩
  show pre.map Char.toLower ++ ('.' :: post.map Char.toLower) = (name.data.map Char.toLower)
  rw [hn]
  simp [(by decide : Char.toLower '.' = '.')]

/-- Any file whose extension (case-insensitive) lies in the figure set is
matched by `remove_figures`' suffix test. -/
theorem figureExt_isFigureName (name : String)
    (h : extOf name ∈ figureExtensions) : isFigureName name = true := by
  cases hs : splitAtLastDot name.data with
  | none =>
    have hempty : extOf name = "" := by unfold extOf; rw [hs]
    rw [hempty] at h
    exact absurd h (by decide)
  | some pp =>
    obtain ⟨pre, post⟩ := pp
    have hext : extOf name = ⟨'.' :: post.map Char.toLower⟩ := by
      unfold extOf; rw [hs]
    have hsuf : (extOf name).data <:+ (strToLower name).data := by
      rw [hext]
      exact extOf_isSuffix name pre post hs
    unfold isFigureName
    rw [List.any_eq_true]
    exact ⟨extOf name, h, decide_eq_true hsuf⟩

/-- A `.tex` or `.bib` file is never matched by the figure test. -/
theorem texBib_not_figure (name : String)
    (h : strEndsWith name ".tex" = true ∨ strEndsWith name ".bib" = true) :
    isFigureName name = false := by
  have hlow : ∃ clow, (strToLower name).data.getLast? = some clow
      ∧ (clow = 'x' ∨ clow = 'b') := by
    rcases h with h | h
    · refine ⟨'x', ?_, Or.inl rfl⟩
      have hsuf : (".tex" : String).data <:+ name.data :=
        of_decide_eq_true h
      have hmap := hsuf.map Char.toLower
      rw [(by decide : (".tex" : String).data.map Char.toLower
          = (".tex" : String).data)] at hmap
      exact lastChar_of_suffix _ _ _ (by decide) hmap
    · refine ⟨'b', ?_, Or.inr rfl⟩
      have hsuf : (".bib" : String).data <:+ name.data :=
        of_decide_eq_true h
      have hmap := hsuf.map Char.toLower
      rw [(by decide : (".bib" : String).data.map Char.toLower
          = (".bib" : String).data)] at hmap
      exact lastChar_of_suffix _ _ _ (by decide) hmap
  obtain ⟨clow, hlast, hxb⟩ := hlow
  unfold isFigureName
  rw [List.any_eq_false]
  intro ext hext
  rw [Bool.not_eq_true]
  fin_cases hext <;>
    first
      | exact strEndsWith_false_of_lastChar _ _ clow 'g' hlast (by decide)
          (by rcases hxb with hh | hh <;> subst hh <;> decide)
      | exact strEndsWith_false_of_lastChar _ _ clow 'f' hlast (by decide)
          (by rcases hxb with hh | hh <;> subst hh <;> decide)
      | exact strEndsWith_false_of_lastChar _ _ clow 's' hlast (by decide)
          (by rcases hxb with hh | hh <;> subst hh <;> decide)

/-- A name ending in `.tex` does not end in `.bib` and vice versa. -/
theorem tex_bib_exclusive (name : String) :
    (strEndsWith name ".tex" = true → strEndsWith name ".bib" = false)
    ∧ (strEndsWith name ".bib" = true → strEndsWith name ".tex" = false) := by
  constructor
  · intro h
    have hx : name.data.getLast? = some 'x' :=
      lastChar_of_suffix _ _ _ (by decide) (of_decide_eq_true h)
    exact strEndsWith_false_of_lastChar name ".bib" 'x' 'b' hx (by decide) (by decide)
  · intro h
    have hb : name.data.getLast? = some 'b' :=
      lastChar_of_suffix _ _ _ (by decide) (of_decide_eq_true h)
    exact strEndsWith_false_of_lastChar name ".tex" 'b' 'x' hb (by decide) (by decide)

/-- C7: with no individual filesystem failure, (i) every `.tex` file and
every `.bib` file not exceeding the bib-size threshold appears — same
relative directory path, same name, same bytes — in the destination tree
produced by `copy_tex_and_bib_files`; (ii) after `remove_figures` no file
whose extension (case-insensitive) is in the fixed figure set remains;
(iii) `remove_figures` never removes a `.tex` or `.bib` file. -/
theorem collect_and_strip_roundtrip :
    (∀ (tree : List TreeFile) (threshold : Nat) (f : TreeFile), f ∈ tree →
      (strEndsWith f.name ".tex" = true
        ∨ (strEndsWith f.name ".bib" = true ∧ f.content.length ≤ threshold)) →
      f ∈ (copy_tex_and_bib_files benignFs tree true threshold).1)
    ∧ (∀ (tree : List TreeFile) (g : TreeFile),
        g ∈ (remove_figures benignFs tree).1 → extOf g.name ∉ figureExtensions)
    ∧ (∀ (tree : List TreeFile) (f : TreeFile), f ∈ tree →
        (strEndsWith f.name ".tex" = true ∨ strEndsWith f.name ".bib" = true) →
        f ∈ (remove_figures benignFs tree).1) := by
  refine ⟨?_, ?_, ?_⟩
  · intro tree threshold f hf hkind
    simp only [copy_tex_and_bib_files, benignFs]
    rw [List.mem_filter]
    constructor
    · rw [List.mem_filter]
      refine ⟨hf, ?_⟩
      rcases hkind with h | ⟨h, _⟩ <;> simp [h]
    · rcases hkind with h | ⟨h, hsize⟩
      · have hbib := (tex_bib_exclusive f.name).1 h
        simp [hbib]
      · simp [h, Nat.not_lt.mpr hsize]
  · intro tree g hg hext
    simp only [remove_figures, benignFs] at hg
    rw [List.mem_filter] at hg
    have := hg.2
    simp only [Bool.not_eq_true'] at this
    rw [figureExt_isFigureName g.name hext] at this
    simp at this
  · intro tree f hf hkind
    simp only [remove_figures, benignFs]
    rw [List.mem_filter]
    refine ⟨hf, ?_⟩
    rw [texBib_not_figure f.name hkind]
    simp

/-- Witness for `collect_and_strip_roundtrip` on a concrete tree holding a
`.tex` file, an oversized `.bib` file and an upper-case figure file: the
`.tex` file is collected byte-identically at its relative path, survives
the strip, and the remaining tree has no figure-extension file. -/
theorem collect_and_strip_roundtrip_witness :
    (⟨["sub"], "main.tex", [1, 2, 3]⟩ : TreeFile) ∈
      (copy_tex_and_bib_files benignFs
        [⟨["sub"], "main.tex", [1, 2, 3]⟩, ⟨[], "refs.bib", [1, 2, 3, 4, 5, 6]⟩,
         ⟨[], "fig.PNG", [9, 9]⟩] true 5).1
    ∧ (⟨["sub"], "main.tex", [1, 2, 3]⟩ : TreeFile) ∈
      (remove_figures benignFs
        [⟨["sub"], "main.tex", [1, 2, 3]⟩, ⟨[], "fig.PNG", [9, 9]⟩]).1
    ∧ extOf "main.tex" ∉ figureExtensions := by
  refine ⟨?_, ?_, ?_⟩
  · exact collect_and_strip_roundtrip.1
      [⟨["sub"], "main.tex", [1, 2, 3]⟩, ⟨[], "refs.bib", [1, 2, 3, 4, 5, 6]⟩,
       ⟨[], "fig.PNG", [9, 9]⟩] 5
      ⟨["sub"], "main.tex", [1, 2, 3]⟩ (by decide) (Or.inl (by decide))
  · exact collect_and_strip_roundtrip.2.2
      [⟨["sub"], "main.tex", [1, 2, 3]⟩, ⟨[], "fig.PNG", [9, 9]⟩]
      ⟨["sub"], "main.tex", [1, 2, 3]⟩ (by decide) (Or.inl (by decide))
  · exact collect_and_strip_roundtrip.2.1
      [⟨["sub"], "main.tex", [1, 2, 3]⟩, ⟨[], "fig.PNG", [9, 9]⟩]
      ⟨["sub"], "main.tex", [1, 2, 3]⟩ (by decide)

/-! ## Archive classification and extraction (`src/file_processor.py` 21-143)

`extract_archive` inspects one downloaded file.  The file is described by
what the code's probes can observe of it: its base name, whether
`tarfile.is_tarfile` / `zipfile.is_zipfile` hold of its content (these
return `False`, without raising, on existing non-archives — hence a
renamed PDF cannot crash the tar check), its leading eight bytes, and
whether its gunzipped payload is a tar.  The environment says which of
the individual effectful calls raises.  The result records the outcome,
the classifier-written files left in `extract_dir` (tar/zip member lists
are not itemized; `tarExtracted`/`zipExtracted` record that an
`extractall` ran), whether the source archive was deleted, and how often
`incr_error('extraction_failures', ...)` was called (a key the monitor
drops, see `monitor_unknown_keys_dropped`). -/

/-- Replace every non-overlapping occurrence of `pat` in the list,
scanning left to right; the fuel (instantiated with the list length)
makes the recursion structural. -/
def replaceFuel (pat rep : List Char) : Nat → List Char → List Char
  | 0, s => s
  | _, [] => []
  | fuel + 1, c :: cs =>
    if pat ≠ [] ∧ pat <+: (c :: cs) then
      rep ++ replaceFuel pat rep fuel (List.drop (pat.length - 1) cs)
    else c :: replaceFuel pat rep fuel cs

/-- Python `s.replace(pat, rep)` for nonempty `pat`: every non-overlapping
occurrence, left to right. -/
def pyReplace (s pat rep : String) : String :=
  ⟨replaceFuel pat.data rep.data s.data.length s.data⟩

/-- `b'%PDF'`. -/
def pdfSignature : List Nat := [37, 80, 68, 70]

/-- `b'\x1f\x8b'`, the gzip magic. -/
def gzipSignature : List Nat := [31, 139]

/-- Python `bytes.startswith`. -/
def bytesStartWith (l p : List Nat) : Bool := decide (p <+: l)

/-- Python `bytes.lstrip()`: drop leading ASCII whitespace bytes. -/
def lstripWs : List Nat → List Nat
  | [] => []
  | b :: bs => if b = 9 ∨ b = 10 ∨ b = 11 ∨ b = 12 ∨ b = 13 ∨ b = 32
      then lstripWs bs else b :: bs

/-- One downloaded file, as `extract_archive`'s probes observe it. -/
structure ArchiveFile where
  name : String
  isTar : Bool
  isZip : Bool
  magic : List Nat
  gunzippedIsTar : Bool
deriving DecidableEq, Repr

/-- Which effectful calls inside `extract_archive` raise.  Each flag
corresponds to one `try` block (or unguarded call) in the source. -/
structure ExtractEnv where
  makedirsRaises : Bool
  tarExtractRaises : Bool
  zipExtractRaises : Bool
  readMagicRaises : Bool
  copyPdfRaises : Bool
  saveHtmlRaises : Bool
  gunzipRaises : Bool
  gunzipTarExtractRaises : Bool
  removeDecompressedRaises : Bool
  copySingleRaises : Bool
  archiveExists : Bool
  removeArchiveRaises : Bool
deriving DecidableEq, Repr

/-- The benign environment: nothing raises, the archive is on disk. -/
def benignExtract : ExtractEnv :=
  ⟨false, false, false, false, false, false, false, false, false, false,
   true, false⟩

/-- Observable outcome of `extract_archive`. -/
structure ExtractResult where
  success : Bool
  artifacts : List String
  tarExtracted : Bool
  zipExtracted : Bool
  archiveDeleted : Bool
  failureIncrs : Nat
deriving DecidableEq, Repr

/-- The top-level `except` handler (file_processor.py lines 130-143):
delete the archive if it still exists (ignoring a failing remove), call
`incr_error('extraction_failures', 1)`, return `False`. -/
def exceptionResult (env : ExtractEnv) : ExtractResult :=
  ⟨false, [], false, false, env.archiveExists && !env.removeArchiveRaises, 1⟩

/-- Lines 116-128: the plain `.tex`/`.bib` copy, then the final
`return False` for unsupported formats.  Reached by falling through the
`.gz` branch as well. -/
def tailChecks (f : ArchiveFile) (env : ExtractEnv) (arts : List String) :
    ExtractResult :=
  if suffixOf f.name = ".tex" ∨ suffixOf f.name = ".bib" then
    if !env.copySingleRaises then
      ⟨true, arts ++ [f.name], false, false, false, 0⟩
    else ⟨false, arts, false, false, false, 0⟩
  else ⟨false, arts, false, false, false, 0⟩

/-- Lines 87-114: the gzip-magic branch; falls through to `tailChecks`
when the magic is not gzip or an inner call raised (each inner `except`
only logs). -/
def gzipChecks (f : ArchiveFile) (env : ExtractEnv) (magic : List Nat)
    (arts : List String) : ExtractResult :=
  if bytesStartWith magic gzipSignature then
    if env.gunzipRaises then tailChecks f env arts
    else
      if f.gunzippedIsTar then
        if env.gunzipTarExtractRaises then
          tailChecks f env (arts ++ [stemOf f.name])
        else
          ⟨true,
           arts ++ (if env.removeDecompressedRaises then [stemOf f.name] else []),
           true, false, false, 0⟩
      else ⟨true, arts ++ [stemOf f.name], false, false, false, 0⟩
  else tailChecks f env arts

/-- Lines 77-85: the HTML-error-page branch (leading non-whitespace byte
`<`): save `<name>.html`, report failure; a raising save falls through. -/
def htmlChecks (f : ArchiveFile) (env : ExtractEnv) (magic : List Nat)
    (arts : List String) : ExtractResult :=
  if bytesStartWith (lstripWs magic) [60] then
    if !env.saveHtmlRaises then
      ⟨false, arts ++ [f.name ++ ".html"], false, false, false, 0⟩
    else gzipChecks f env magic arts
  else gzipChecks f env magic arts

/-- Lines 67-75: the PDF-signature check: copy the mislabelled file under
its name with `.tar.gz` replaced by `.pdf`; a raising copy falls through
to the HTML check. -/
def pdfCheck (f : ArchiveFile) (env : ExtractEnv) (magic : List Nat) :
    ExtractResult :=
  if bytesStartWith magic pdfSignature then
    if !env.copyPdfRaises then
      ⟨true, [pyReplace f.name ".tar.gz" ".pdf"], false, false, false, 0⟩
    else htmlChecks f env magic []
  else htmlChecks f env magic []

/-- Lines 57-114: the whole `p.suffix == '.gz'` branch.  The magic bytes
are read first (a raising read leaves `magic = b''`); the PDF check comes
before the HTML and gzip checks. -/
def gzSuffixChecks (f : ArchiveFile) (env : ExtractEnv) : ExtractResult :=
  pdfCheck f env (if env.readMagicRaises then [] else f.magic)

/-- `extract_archive` (file_processor.py lines 21-143).  Classification
order: content-signature tar check, content-signature zip check, the
`.gz`-suffix branch (PDF / HTML / gzip by magic bytes), bare `.tex`/`.bib`
copy, otherwise failure; any exception that escapes a branch reaches the
top-level handler, which deletes the archive and reports failure. -/
def extract_archive (f : ArchiveFile) (env : ExtractEnv) : ExtractResult :=
  if env.makedirsRaises then exceptionResult env
  else if f.isTar then
    if env.tarExtractRaises then exceptionResult env
    else ⟨true, [], true, false, false, 0⟩
  else if f.isZip then
    if env.zipExtractRaises then exceptionResult env
    else ⟨true, [], false, true, false, 0⟩
  else if suffixOf f.name = ".gz" then gzSuffixChecks f env
  else tailChecks f env []

/-- Whether an exception escapes to `extract_archive`'s top-level handler:
only the unguarded directory creation and the top-level tar/zip
`extractall` calls can do so; every other raise point sits inside a
branch-local `try` that merely logs. -/
def topLevelRaise (f : ArchiveFile) (env : ExtractEnv) : Bool :=
  env.makedirsRaises || (!env.makedirsRaises && f.isTar && env.tarExtractRaises)
    || (!env.makedirsRaises && !f.isTar && f.isZip && env.zipExtractRaises)

/-- C4 (amended): for a non-tar non-zip file carrying the `.gz` suffix,
content decides before the extension: a `%PDF` signature is copied into
the extraction directory under its name with `.tar.gz` replaced by
`.pdf` (so a mislabelled `foo.tar.gz` lands as `foo.pdf`, while a plain
`x.gz` keeps its name) and extraction succeeds with no tar extraction
attempted and nothing deleted; a leading non-whitespace `<` byte is
saved as `<name>.html` and reported as failure.  The tar check itself is
the boolean `is_tarfile` probe, so a renamed PDF never crashes it. -/
theorem extract_gz_content_before_extension :
    ∀ (f : ArchiveFile) (env : ExtractEnv),
      f.isTar = false → f.isZip = false → env.makedirsRaises = false →
      env.readMagicRaises = false → suffixOf f.name = ".gz" →
      ((bytesStartWith f.magic pdfSignature = true ∧ env.copyPdfRaises = false) →
        extract_archive f env =
          ⟨true, [pyReplace f.name ".tar.gz" ".pdf"], false, false, false, 0⟩)
      ∧ ((bytesStartWith f.magic pdfSignature = false
          ∧ bytesStartWith (lstripWs f.magic) [60] = true
          ∧ env.saveHtmlRaises = false) →
        extract_archive f env =
          ⟨false, [f.name ++ ".html"], false, false, false, 0⟩) := by
  intro f env htar hzip hmk hread hsuf
  constructor
  · rintro ⟨hpdf, hcopy⟩
    simp [extract_archive, gzSuffixChecks, pdfCheck, htar, hzip, hmk, hread,
      hsuf, hpdf, hcopy]
  · rintro ⟨hpdf, hlt, hsave⟩
    simp [extract_archive, gzSuffixChecks, pdfCheck, htmlChecks, htar, hzip,
      hmk, hread, hsuf, hpdf, hlt, hsave]

/-- Witness for `extract_gz_content_before_extension`: a `%PDF`-signature
file named `foo.tar.gz` is saved as `foo.pdf` and reported successful
with no tar extraction; an HTML error page named `bar.tar.gz` is saved
as `bar.tar.gz.html` and reported failed. -/
theorem extract_gz_content_before_extension_witness :
    extract_archive ⟨"foo.tar.gz", false, false,
        [37, 80, 68, 70, 49, 46, 52, 10], false⟩ benignExtract
      = ⟨true, ["foo.pdf"], false, false, false, 0⟩
    ∧ extract_archive ⟨"bar.tar.gz", false, false,
        [60, 104, 116, 109, 108, 62, 10, 10], false⟩ benignExtract
      = ⟨false, ["bar.tar.gz.html"], false, false, false, 0⟩ := by
  constructor
  · have h := (extract_gz_content_before_extension
      ⟨"foo.tar.gz", false, false, [37, 80, 68, 70, 49, 46, 52, 10], false⟩
      benignExtract rfl rfl rfl rfl (by decide)).1 ⟨by decide, rfl⟩
    rw [h]
    decide
  · exact (extract_gz_content_before_extension
      ⟨"bar.tar.gz", false, false, [60, 104, 116, 109, 108, 62, 10, 10], false⟩
      benignExtract rfl rfl rfl rfl (by decide)).2 ⟨by decide, by decide, rfl⟩

/-- C4 counterexample: the claim quantifies over EVERY file carrying the
`.gz` suffix, but a `%PDF`-signature file named plain `x.gz` is copied
under its unchanged name `x.gz` — not as a `.pdf` file — because the code
only rewrites the literal substring `.tar.gz`. -/
theorem extract_gz_pdf_plain_name_cex :
    (extract_archive ⟨"x.gz", false, false,
        [37, 80, 68, 70, 49, 46, 52, 10], false⟩ benignExtract).success = true
    ∧ (extract_archive ⟨"x.gz", false, false,
        [37, 80, 68, 70, 49, 46, 52, 10], false⟩ benignExtract).artifacts
      = ["x.gz"]
    ∧ strEndsWith "x.gz" ".pdf" = false := by decide


/-- `tailChecks` never deletes the archive. -/
theorem tailChecks_no_delete (f : ArchiveFile) (env : ExtractEnv)
    (arts : List String) : (tailChecks f env arts).archiveDeleted = false := by
  unfold tailChecks
  split_ifs <;> rfl

/-- `gzipChecks` never deletes the archive. -/
theorem gzipChecks_no_delete (f : ArchiveFile) (env : ExtractEnv)
    (magic : List Nat) (arts : List String) :
    (gzipChecks f env magic arts).archiveDeleted = false := by
  unfold gzipChecks
  split_ifs <;> first | rfl | apply tailChecks_no_delete

/-- `htmlChecks` never deletes the archive. -/
theorem htmlChecks_no_delete (f : ArchiveFile) (env : ExtractEnv)
    (magic : List Nat) (arts : List String) :
    (htmlChecks f env magic arts).archiveDeleted = false := by
  unfold htmlChecks
  split_ifs <;> first | rfl | apply gzipChecks_no_delete

/-- `pdfCheck` never deletes the archive. -/
theorem pdfCheck_no_delete (f : ArchiveFile) (env : ExtractEnv)
    (magic : List Nat) : (pdfCheck f env magic).archiveDeleted = false := by
  unfold pdfCheck
  split_ifs <;> first | rfl | apply htmlChecks_no_delete

/-- `gzSuffixChecks` never deletes the archive. -/
theorem gzSuffixChecks_no_delete (f : ArchiveFile) (env : ExtractEnv) :
    (gzSuffixChecks f env).archiveDeleted = false := by
  unfold gzSuffixChecks
  apply pdfCheck_no_delete

/-- C6 (amended): the source archive is deleted exactly when an exception
reaches the top-level handler — the unguarded `makedirs` or a top-level
tar/zip `extractall` raise — and the handler then reports failure (and
skips the delete when the archive is already gone or the remove itself
raises).  An exception inside any of the branch-local `try` blocks
(`.gz`-magic read, PDF copy, HTML save, gunzip, single-file copy) is
caught where it occurs and never deletes the archive. -/
theorem extract_exception_delete_policy :
    ∀ (f : ArchiveFile) (env : ExtractEnv),
      (topLevelRaise f env = true →
        extract_archive f env = exceptionResult env
        ∧ (extract_archive f env).success = false
        ∧ (extract_archive f env).archiveDeleted
            = (env.archiveExists && !env.removeArchiveRaises))
      ∧ (topLevelRaise f env = false →
        (extract_archive f env).archiveDeleted = false) := by
  intro f env
  constructor
  · intro htop
    have hres : extract_archive f env = exceptionResult env := by
      unfold topLevelRaise at htop
      simp only [Bool.or_eq_true, Bool.and_eq_true, Bool.not_eq_true'] at htop
      unfold extract_archive
      rcases htop with (hmk | ⟨⟨hmk, htar⟩, htr⟩) | ⟨⟨⟨hmk, htar⟩, hzip⟩, hzr⟩
      · simp [hmk]
      · simp [hmk, htar, htr]
      · simp [hmk, htar, hzip, hzr]
    exact ⟨hres, by rw [hres]; rfl, by rw [hres]; rfl⟩
  · intro htop
    cases hmk : env.makedirsRaises with
    | true => rw [topLevelRaise, hmk] at htop; simp at htop
    | false =>
      cases htar : f.isTar with
      | true =>
        cases htr : env.tarExtractRaises with
        | true => rw [topLevelRaise, hmk, htar, htr] at htop; simp at htop
        | false => simp [extract_archive, hmk, htar, htr]
      | false =>
        cases hzip : f.isZip with
        | true =>
          cases hzr : env.zipExtractRaises with
          | true => rw [topLevelRaise, hmk, htar, hzip, hzr] at htop; simp at htop
          | false => simp [extract_archive, hmk, htar, hzip, hzr]
        | false =>
          by_cases hsuf : suffixOf f.name = ".gz"
          · simp [extract_archive, hmk, htar, hzip, hsuf, gzSuffixChecks_no_delete]
          · simp [extract_archive, hmk, htar, hzip, hsuf, tailChecks_no_delete]

/-- Witness for `extract_exception_delete_policy`: a top-level tar
extraction failure on an on-disk archive deletes the archive and fails;
with the raise flag clear nothing is deleted. -/
theorem extract_exception_delete_policy_witness :
    (extract_archive ⟨"broken.tar", true, false, [31, 139, 8, 0, 0, 0, 0, 0], false⟩
        ⟨false, true, false, false, false, false, false, false, false, false,
         true, false⟩).archiveDeleted = true
    ∧ (extract_archive ⟨"broken.tar", true, false, [31, 139, 8, 0, 0, 0, 0, 0], false⟩
        benignExtract).archiveDeleted = false := by
  constructor
  · exact ((extract_exception_delete_policy
      ⟨"broken.tar", true, false, [31, 139, 8, 0, 0, 0, 0, 0], false⟩
      ⟨false, true, false, false, false, false, false, false, false, false,
       true, false⟩).1 (by decide)).2.2.trans (by decide)
  · exact (extract_exception_delete_policy
      ⟨"broken.tar", true, false, [31, 139, 8, 0, 0, 0, 0, 0], false⟩
      benignExtract).2 (by decide)

/-- C6 counterexample: an exception inside a classification branch does
NOT delete the archive: a `%PDF`-signature `.tar.gz` file whose PDF copy
raises is reported as failure with the source archive still on disk
(`archiveDeleted = false` although the archive exists), contradicting the
claim that an exception in any classification branch deletes it. -/
theorem extract_branch_exception_no_delete_cex :
    (extract_archive ⟨"a.tar.gz", false, false, [37, 80, 68, 70, 49, 46, 52, 10], false⟩
        ⟨false, false, false, false, true, false, false, false, false, false,
         true, false⟩).success = false
    ∧ (extract_archive ⟨"a.tar.gz", false, false, [37, 80, 68, 70, 49, 46, 52, 10], false⟩
        ⟨false, false, false, false, true, false, false, false, false, false,
         true, false⟩).archiveDeleted = false := by decide

/-! ## Versioned source fetch (`src/arxiv_client.py` 135-206)

`download_all_versions` iterates `v = 1 .. max_versions`.  Per version it
performs the remote lookup (`next(client.results(search))`), derives the
version tag from the entry id, consults `skip_versions`, then downloads.
The remote behaviour is an oracle: what the lookup yields at each `v`
(`notFound` = `StopIteration`, `raisesOther` = any other exception, which
the outer handler turns into returning the results collected so far —
observably the same stop), what the download call yields (`raises`, or a
possibly falsy path), and which paths exist on disk.  `fileSize` records
each downloaded file's size; the code never consults it — there is no
emptiness check. -/

/-- Characters after the LAST occurrence of `c`, or `none` if absent
(Python `s.split(c)[-1]` combined with the `c in s` test). -/
def afterLastChar (c : Char) : List Char → Option (List Char)
  | [] => none
  | x :: xs =>
    match afterLastChar c xs with
    | some r => some r
    | none => if x = c then some xs else none

/-- arxiv_client.py lines 165-171: `'v' + eid.split('v')[-1]` when the
entry id contains a `'v'`, else the tag stays `""`. -/
def versionTagOf (eid : String) : String :=
  match afterLastChar 'v' eid.data with
  | some rest => ⟨'v' :: rest⟩
  | none => ""

/-- What the remote lookup yields for one versioned id. -/
inductive LookupResult where
  | notFound
  | raisesOther
  | found (entryId : String)
deriving DecidableEq, Repr

/-- What `paper.download_source` yields (`returns none` = falsy path). -/
inductive DownloadResult where
  | raises
  | returns (path : Option String)
deriving DecidableEq, Repr

/-- The remote/filesystem oracle for one `download_all_versions` call. -/
structure FetchEnv where
  lookup : Nat → LookupResult
  download : Nat → DownloadResult
  pathExists : String → Bool
  fileSize : String → Nat

/-- The `for v in range(1, max_versions + 1)` loop body
(arxiv_client.py lines 156-201), fuelled by the remaining iteration
count.  Stop conditions end the loop with the results collected so far;
a skipped version `continue`s. -/
def fetchLoop (env : FetchEnv) (skip : List String) :
    Nat → Nat → List (String × String)
  | _, 0 => []
  | v, fuel + 1 =>
    match env.lookup v with
    | .notFound => []
    | .raisesOther => []
    | .found eid =>
      if skip ≠ [] ∧ versionTagOf eid ≠ "" ∧ versionTagOf eid ∈ skip then
        fetchLoop env skip (v + 1) fuel
      else
        match env.download v with
        | .raises => []
        | .returns none => []
        | .returns (some path) =>
          if env.pathExists path then
            (path, versionTagOf eid) :: fetchLoop env skip (v + 1) fuel
          else []

/-- `download_all_versions` (arxiv_client.py lines 135-206) for an
already version-free base id. -/
def download_all_versions (env : FetchEnv) (max_versions : Nat)
    (skip_versions : List String) : List (String × String) :=
  fetchLoop env skip_versions 1 max_versions

/-- The amended stop condition, from the claim's words with "absent or
empty on disk" corrected to "absent": lookup not found or raising,
or (for a non-skipped version) a raising download, a falsy returned
path, or a returned path that does not exist.  A skipped version is
never a stop. -/
def stopsAt (env : FetchEnv) (skip : List String) (v : Nat) : Bool :=
  match env.lookup v with
  | .notFound => true
  | .raisesOther => true
  | .found eid =>
    if skip ≠ [] ∧ versionTagOf eid ≠ "" ∧ versionTagOf eid ∈ skip then false
    else
      match env.download v with
      | .raises => true
      | .returns none => true
      | .returns (some path) => !env.pathExists path

/-- What the claim says one non-stopping version contributes: nothing if
skipped, else its `(path, tag)` pair. -/
def collectedAt (env : FetchEnv) (skip : List String) (v : Nat) :
    List (String × String) :=
  match env.lookup v with
  | .found eid =>
    if skip ≠ [] ∧ versionTagOf eid ≠ "" ∧ versionTagOf eid ∈ skip then []
    else
      match env.download v with
      | .returns (some path) =>
        if env.pathExists path then [(path, versionTagOf eid)] else []
      | _ => []
  | _ => []

/-- The claim's fetch algorithm (amended): walk `v = 1 .. max_versions`
in ascending order, keep going over skipped versions, cut the iteration
at the first stopping version, and return exactly what the versions
before the cut contributed. -/
def fetchPerSpec (env : FetchEnv) (max_versions : Nat)
    (skip : List String) : List (String × String) :=
  (((List.range' 1 max_versions).takeWhile
      (fun v => !stopsAt env skip v)).map (collectedAt env skip)).flatten

/-- The loop agrees with the spec-side algorithm from any starting
version. -/
theorem fetchLoop_eq_spec (env : FetchEnv) (skip : List String) :
    ∀ (fuel v : Nat),
      fetchLoop env skip v fuel =
        (((List.range' v fuel).takeWhile
            (fun w => !stopsAt env skip w)).map (collectedAt env skip)).flatten := by
  intro fuel
  induction fuel with
  | zero => intro v; rfl
  | succ n ih =>
    intro v
    rw [List.range'_succ v n 1, List.takeWhile_cons]
    cases hl : env.lookup v with
    | notFound =>
      have hstop : stopsAt env skip v = true := by simp [stopsAt, hl]
      rw [hstop]
      simp [fetchLoop, hl]
    | raisesOther =>
      have hstop : stopsAt env skip v = true := by simp [stopsAt, hl]
      rw [hstop]
      simp [fetchLoop, hl]
    | found eid =>
      by_cases hskip : skip ≠ [] ∧ versionTagOf eid ≠ "" ∧ versionTagOf eid ∈ skip
      · have hstop : stopsAt env skip v = false := by
          simp only [stopsAt, hl]
          rw [if_pos hskip]
        have hcoll : collectedAt env skip v = [] := by
          simp only [collectedAt, hl]
          rw [if_pos hskip]
        rw [hstop]
        simp only [Bool.not_false, if_true, List.map_cons, List.flatten_cons,
          hcoll, List.nil_append]
        rw [← ih (v + 1)]
        simp only [fetchLoop, hl]
        rw [if_pos hskip]
      · cases hd : env.download v with
        | raises =>
          have hstop : stopsAt env skip v = true := by
            simp only [stopsAt, hl]
            rw [if_neg hskip]
            simp [hd]
          rw [hstop]
          simp only [fetchLoop, hl, hd]
          rw [if_neg hskip]
          simp
        | returns p =>
          cases p with
          | none =>
            have hstop : stopsAt env skip v = true := by
              simp only [stopsAt, hl]
              rw [if_neg hskip]
              simp [hd]
            rw [hstop]
            simp only [fetchLoop, hl, hd]
            rw [if_neg hskip]
            simp [hd]
          | some path =>
            cases hex : env.pathExists path with
            | false =>
              have hstop : stopsAt env skip v = true := by
                simp only [stopsAt, hl]
                rw [if_neg hskip]
                simp [hd, hex]
              rw [hstop]
              simp only [fetchLoop, hl, hd]
              rw [if_neg hskip]
              simp [hd, hex]
            | true =>
              have hstop : stopsAt env skip v = false := by
                simp only [stopsAt, hl]
                rw [if_neg hskip]
                simp [hd, hex]
              have hcoll : collectedAt env skip v
                  = [(path, versionTagOf eid)] := by
                simp only [collectedAt, hl]
                rw [if_neg hskip]
                simp [hd, hex]
              rw [hstop]
              simp only [Bool.not_false, if_true, List.map_cons,
                List.flatten_cons, hcoll, List.singleton_append]
              rw [← ih (v + 1)]
              simp only [fetchLoop, hl, hd]
              rw [if_neg hskip]
              simp [hd, hex]

/-- C3 (amended): `download_all_versions` walks `v = 1 .. max_versions`
in ascending order; a version whose tag is in `skip_versions` is skipped
without stopping the loop; the loop cuts at the first version that is
not found remotely, whose lookup or download raises, or whose download
yields a falsy path or a path ABSENT on disk (the code has no emptiness
check), and returns exactly the pairs collected by the versions before
that cut — so after a failure at version `k`, versions `1..k-1` are kept
and no later version contributes. -/
theorem download_all_versions_stop_policy :
    ∀ (env : FetchEnv) (max_versions : Nat) (skip_versions : List String),
      download_all_versions env max_versions skip_versions
        = fetchPerSpec env max_versions skip_versions := by
  intro env max_versions skip_versions
  unfold download_all_versions fetchPerSpec
  exact fetchLoop_eq_spec env skip_versions max_versions 1

/-- A remote oracle where version 1's downloaded file exists but is EMPTY
(size 0) and version 2 downloads normally; version 3 does not exist. -/
def emptyFileFetchEnv : FetchEnv :=
  { lookup := fun v =>
      if v = 1 then .found "2402.00001v1"
      else if v = 2 then .found "2402.00001v2"
      else .notFound,
    download := fun v =>
      if v = 1 then .returns (some "p1")
      else if v = 2 then .returns (some "p2")
      else .raises,
    pathExists := fun _ => true,
    fileSize := fun p => if p = "p1" then 0 else 7 }

/-- C3 counterexample: the claim says the loop stops at the first version
whose downloaded file is absent OR EMPTY on disk, returning only the
versions collected before that point — so with version 1's file empty it
predicts the empty result and no attempt at version 2.  The code checks
only existence, never size: it keeps the empty version 1 file AND goes on
to collect version 2. -/
theorem download_empty_file_not_stop_cex :
    emptyFileFetchEnv.fileSize "p1" = 0
    ∧ emptyFileFetchEnv.pathExists "p1" = true
    ∧ download_all_versions emptyFileFetchEnv 10 []
        = [("p1", "v1"), ("p2", "v2")] := by
  refine ⟨rfl, rfl, ?_⟩
  decide

/-! ## Per-paper orchestration (`src/scraper.py` 548-698)

`_process_single_paper` downloads versions `v1, v2, ...` (up to the
safety limit of 20) by calling `download_source_version`, extracts each
one into a version-scoped scratch directory `temp_<folder>_<v>` under the
shared cache directory via `extract_tarball`, strips figures, copies
tex/bib into `tex/<folder>v<v>`, and finally writes `metadata.json`.

`download_source_version` and `extract_tarball` are called by the
scraper but defined nowhere under `src/`; they are modelled from the
spec as oracles: the per-version download yields either nothing ("not
found") or a path (§6 "Remote paper-version lookup-and-download"), and
the per-version extraction yields success or failure (§4.1 `extract`).
Everything else is translated from scraper.py itself.

Observables tracked: which `tex/<folder>v<v>` subdirectories were
created, which version-scoped scratch directories still exist on
return, whether the per-paper base temp path (`temp_<folder>` — defined
at line 569 and only ever touched by the `except` handler at line 697)
was cleaned, the monitor stats dict, whether a `NO_SOURCE_AVAILABLE.txt`
placeholder was written, whether `metadata.json` was written, and the
version tags recorded into a download-skip cache.  The run is a fresh
one (no on-disk state from prior runs). -/

/-- Oracles and raise flags for one `_process_single_paper` call. -/
structure PaperEnv where
  /-- Modelled from the spec: `download_source_version(version_id, dir)`
  (missing from `src/`) returns "not found" (`none`) or the downloaded
  archive path. -/
  download : Nat → Option String
  /-- `os.path.exists` on a downloaded path (line 581). -/
  pathExists : String → Bool
  /-- Modelled from the spec: `extract_tarball(tar_path, dir)` (missing
  from `src/`) is the §4.1 archive extraction; `true` = success. -/
  extractOk : Nat → Bool
  /-- `get_directory_size` before figure removal (line 607). -/
  sizeBefore : Nat → Int
  /-- `get_directory_size` after figure removal (line 614). -/
  sizeAfter : Nat → Int
  /-- How many files `copy_tex_and_bib_files` reports copied for a
  version; the scraper DISCARDS this return value (line 621). -/
  copiedCount : Nat → Nat
  /-- Whether writing `metadata.json` (lines 650-652) raises. -/
  metadataWriteRaises : Bool

/-- On-disk + monitor state threaded through the per-version loop. -/
structure PaperState where
  texDirs : List Nat
  scratch : List Nat
  tars : List Nat
  stats : Stats
deriving DecidableEq, Repr

/-- Result of one `_process_single_paper` call. -/
structure PaperResult where
  success : Bool
  placeholderWritten : Bool
  texDirs : List Nat
  scratchLeft : List Nat
  baseTempCleaned : Bool
  skipCache : List String
  stats : Stats
  metadataWritten : Bool
deriving DecidableEq, Repr

/-- `try: increment_stat(...) except: pass` (e.g. lines 636-639). -/
def tryIncrement (stats : Stats) (key : String) (value : Int) : Stats :=
  (increment_stat stats key value).getD stats

/-- The blind download loop (scraper.py lines 573-590): `while version
<= 20`, stop at the first version with no downloadable source (falsy
path or a path absent on disk); returns the downloaded version numbers
in order. -/
def downloadLoop (env : PaperEnv) : Nat → Nat → List Nat
  | _, 0 => []
  | v, fuel + 1 =>
    match env.download v with
    | none => []
    | some path =>
      if path ≠ "" ∧ env.pathExists path then v :: downloadLoop env (v + 1) fuel
      else []

/-- The versions `_process_single_paper` downloads (starting at 1, safety
limit 20). -/
def downloadedVersions (env : PaperEnv) : List Nat := downloadLoop env 1 20

/-- The per-version processing loop (scraper.py lines 595-631).  For each
downloaded version: create the version-scoped scratch dir; on extraction
failure remove the tar and `continue` — the scratch dir is NOT removed;
on success record the two size stats (unguarded `increment_stat` calls,
lines 608 and 615, whose hypothetical raise would escape to the paper
handler — modelled by `.error`), create `tex/<folder>v<v>` (the copy's
`makedirs` is unconditional), clean the scratch dir and remove the tar.
The copy's return value is discarded, and nothing is recorded anywhere
resembling a download-skip cache. -/
def processVersions (env : PaperEnv) :
    List Nat → PaperState → Except PaperState PaperState
  | [], st => .ok st
  | v :: rest, st =>
    let st1 : PaperState :=
      { texDirs := st.texDirs, scratch := st.scratch ++ [v],
        tars := st.tars, stats := st.stats }
    if !env.extractOk v then
      processVersions env rest
        { texDirs := st1.texDirs, scratch := st1.scratch,
          tars := st1.tars.erase v, stats := st1.stats }
    else
      match increment_stat st1.stats "total_size_bytes" (env.sizeBefore v) with
      | none => .error st1
      | some s1 =>
        match increment_stat s1 "total_size_after_cleanup" (env.sizeAfter v) with
        | none => .error ⟨st1.texDirs, st1.scratch, st1.tars, s1⟩
        | some s2 =>
          processVersions env rest
            { texDirs := st1.texDirs ++ [v],
              scratch := st1.scratch.erase v,
              tars := st1.tars.erase v,
              stats := s2 }

/-- `_process_single_paper` (scraper.py lines 548-698) on a fresh run.
The `skip_missing_source` policy is the `ArxivScraper.skip_missing_source`
attribute: stored by `__init__` (line 63) and passed here because the
claims quantify over it, but — exactly like the source — never consulted.
After the loop: if `tex/` is missing or empty (on a fresh run: no version
reached the copy step), log, try to bump the `skipped_papers` stat and
return `False` — no placeholder file is written; otherwise write
`metadata.json` (a raise is caught by the paper-level handler, which
cleans only the base temp path) and return `True`. -/
def process_single_paper (skipMissingSource : Bool) (env : PaperEnv) :
    PaperResult :=
  match processVersions env (downloadedVersions env)
      ⟨[], [], downloadedVersions env, initialStats⟩ with
  | .error st =>
    ⟨false, false, st.texDirs, st.scratch, true, [], st.stats, false⟩
  | .ok st =>
    if st.texDirs = [] then
      ⟨false, false, st.texDirs, st.scratch, false, [],
       tryIncrement st.stats "skipped_papers" 1, false⟩
    else if env.metadataWriteRaises then
      ⟨false, false, st.texDirs, st.scratch, true, [], st.stats, false⟩
    else
      ⟨true, false, st.texDirs, st.scratch, false, [],
       tryIncrement st.stats "metadata_files_written" 1, true⟩

/-- The download loop collects a consecutive run of version numbers. -/
theorem downloadLoop_range (env : PaperEnv) :
    ∀ (fuel v : Nat), ∃ n, n ≤ fuel ∧ downloadLoop env v fuel = List.range' v n := by
  intro fuel
  induction fuel with
  | zero => intro v; exact ⟨0, Nat.le_refl 0, rfl⟩
  | succ m ih =>
    intro v
    cases hdl : env.download v with
    | none => exact ⟨0, Nat.zero_le _, by simp [downloadLoop, hdl]⟩
    | some path =>
      by_cases hok : path ≠ "" ∧ env.pathExists path = true
      · obtain ⟨n, hn, heq⟩ := ih (v + 1)
        refine ⟨n + 1, Nat.succ_le_succ hn, ?_⟩
        rw [List.range'_succ v n 1]
        simp only [downloadLoop, hdl, if_pos hok, heq]
      · exact ⟨0, Nat.zero_le _, by simp only [downloadLoop, hdl, if_neg hok]; rfl⟩

/-- The downloaded version numbers are distinct. -/
theorem downloadedVersions_nodup (env : PaperEnv) :
    (downloadedVersions env).Nodup := by
  obtain ⟨n, _, heq⟩ := downloadLoop_range env 20 1
  rw [downloadedVersions, heq]
  exact List.nodup_range' 1 n 1 (by decide)

/-- Running the per-version loop on distinct fresh versions: the tex
version directories created are exactly the successfully extracted
versions, the scratch directories left are exactly the versions whose
extraction failed, every tar file is removed, and the stats dict is
unchanged (both size keys are absent, so the unguarded increments are
silently dropped and no exception can arise from them). -/
theorem processVersions_run (env : PaperEnv) :
    ∀ (vs : List Nat) (st : PaperState), vs.Nodup →
      (∀ v ∈ vs, v ∉ st.scratch) →
      "total_size_bytes" ∉ st.stats.map Prod.fst →
      "total_size_after_cleanup" ∉ st.stats.map Prod.fst →
      processVersions env vs st = .ok
        ⟨st.texDirs ++ vs.filter (fun v => env.extractOk v),
         st.scratch ++ vs.filter (fun v => !env.extractOk v),
         vs.foldl (fun t v => t.erase v) st.tars,
         st.stats⟩ := by
  intro vs
  induction vs with
  | nil =>
    intro st _ _ _ _
    simp [processVersions]
  | cons v rest ih =>
    intro st hnodup hfresh hkey1 hkey2
    have hvrest : v ∉ rest := (List.nodup_cons.mp hnodup).1
    have hrestnodup : rest.Nodup := (List.nodup_cons.mp hnodup).2
    have hvfresh : v ∉ st.scratch := hfresh v (List.mem_cons_self v rest)
    cases hex : env.extractOk v with
    | false =>
      have hfresh2 : ∀ w ∈ rest,
          w ∉ (⟨st.texDirs, st.scratch ++ [v], st.tars.erase v,
            st.stats⟩ : PaperState).scratch := by
        intro w hw
        simp only [List.mem_append, List.mem_singleton]
        rintro (hws | hwv)
        · exact hfresh w (List.mem_cons_of_mem v hw) hws
        · exact hvrest (hwv ▸ hw)
      have hrun := ih ⟨st.texDirs, st.scratch ++ [v], st.tars.erase v, st.stats⟩
        hrestnodup hfresh2 hkey1 hkey2
      simp only [processVersions, hex, Bool.not_false, if_pos]
      rw [hrun]
      simp [List.filter_cons, hex, List.append_assoc]
    | true =>
      have hinc1 : increment_stat st.stats "total_size_bytes" (env.sizeBefore v)
          = some st.stats := increment_stat_absent _ _ _ hkey1
      have hinc2 : increment_stat st.stats "total_size_after_cleanup" (env.sizeAfter v)
          = some st.stats := increment_stat_absent _ _ _ hkey2
      have herase : (st.scratch ++ [v]).erase v = st.scratch := by
        rw [List.erase_append_right [v] hvfresh]
        simp
      have hfresh2 : ∀ w ∈ rest,
          w ∉ (⟨st.texDirs ++ [v], st.scratch, st.tars.erase v,
            st.stats⟩ : PaperState).scratch := by
        intro w hw
        exact hfresh w (List.mem_cons_of_mem v hw)
      have hrun := ih ⟨st.texDirs ++ [v], st.scratch, st.tars.erase v, st.stats⟩
        hrestnodup hfresh2 hkey1 hkey2
      simp only [processVersions, hex, Bool.not_true, Bool.false_eq_true,
        if_false, hinc1, hinc2]
      rw [herase]
      rw [hrun]
      simp [List.filter_cons, hex, List.append_assoc]

/-- Full characterization of `_process_single_paper` on a fresh run: the
created tex version directories are the successfully extracted versions,
the scratch directories of failed extractions remain, no placeholder is
ever written, no skip cache is ever updated, and the outcome is `True`
exactly when at least one version was successfully extracted and the
metadata write did not raise. -/
theorem process_single_paper_spec (policy : Bool) (env : PaperEnv) :
    process_single_paper policy env =
      if (downloadedVersions env).filter (fun v => env.extractOk v) = [] then
        ⟨false, false,
         (downloadedVersions env).filter (fun v => env.extractOk v),
         (downloadedVersions env).filter (fun v => !env.extractOk v),
         false, [], initialStats, false⟩
      else if env.metadataWriteRaises then
        ⟨false, false,
         (downloadedVersions env).filter (fun v => env.extractOk v),
         (downloadedVersions env).filter (fun v => !env.extractOk v),
         true, [], initialStats, false⟩
      else
        ⟨true, false,
         (downloadedVersions env).filter (fun v => env.extractOk v),
         (downloadedVersions env).filter (fun v => !env.extractOk v),
         false, [], tryIncrement initialStats "metadata_files_written" 1,
         true⟩ := by
  have hskipinc : tryIncrement initialStats "skipped_papers" 1 = initialStats := by
    unfold tryIncrement
    rw [increment_stat_absent _ _ _ (by decide)]
    rfl
  unfold process_single_paper
  rw [processVersions_run env (downloadedVersions env)
    ⟨[], [], downloadedVersions env, initialStats⟩ (downloadedVersions_nodup env)
    (by intro v hv; simp)
    (show "total_size_bytes" ∉ initialStats.map Prod.fst by decide)
    (show "total_size_after_cleanup" ∉ initialStats.map Prod.fst by decide)]
  simp only [List.nil_append]
  by_cases hok : (downloadedVersions env).filter (fun v => env.extractOk v) = []
  · simp [hok, hskipinc]
  · cases hmeta : env.metadataWriteRaises <;> simp [hok, hmeta]

/-- A remote with no downloadable source at all (even `v1` is missing). -/
def noSourceEnv : PaperEnv :=
  ⟨fun _ => none, fun _ => false, fun _ => false, fun _ => 0, fun _ => 0,
   fun _ => 0, false⟩

/-- A remote with exactly one version whose archive fails to extract. -/
def oneBadVersionEnv : PaperEnv :=
  ⟨fun v => if v = 1 then some "p1" else none, fun _ => true, fun _ => false,
   fun _ => 0, fun _ => 0, fun _ => 0, false⟩

/-- A remote with exactly one version that extracts fine and yields three
collected tex/bib files. -/
def goodVersionEnv : PaperEnv :=
  ⟨fun v => if v = 1 then some "p1" else none, fun _ => true, fun _ => true,
   fun _ => 2048, fun _ => 1024, fun _ => 3, false⟩

/-- A remote with two versions: `v1`'s archive is corrupt, `v2` is fine. -/
def twoVersionEnv : PaperEnv :=
  ⟨fun v => if v = 1 then some "p1" else if v = 2 then some "p2" else none,
   fun _ => true, fun v => v == 2, fun _ => 0, fun _ => 0, fun _ => 1, false⟩

/-- C1 (amended): when the fetch obtains zero versions on a fresh run,
`_process_single_paper` writes NO placeholder file, creates no
`tex/<folder>vN` subdirectory, leaves no scratch directory, leaves the
monitor stats unchanged (its `skipped_papers` bump is dropped), and
returns `False` — the Failed outcome — REGARDLESS of the
`skip_missing_source` policy, which is stored but never consulted. -/
theorem no_source_outcome (env : PaperEnv) (skipMissingSource : Bool)
    (h : downloadedVersions env = []) :
    process_single_paper skipMissingSource env
      = ⟨false, false, [], [], false, [], initialStats, false⟩ := by
  rw [process_single_paper_spec]
  simp [h]

/-- Witness for `no_source_outcome`: the no-source remote, under both
policy values. -/
theorem no_source_outcome_witness :
    process_single_paper true noSourceEnv
      = ⟨false, false, [], [], false, [], initialStats, false⟩
    ∧ process_single_paper false noSourceEnv
      = ⟨false, false, [], [], false, [], initialStats, false⟩ :=
  ⟨no_source_outcome noSourceEnv true (by decide),
   no_source_outcome noSourceEnv false (by decide)⟩

/-- C1 counterexample: with zero versions obtained and the default
skip-missing-source policy enabled, the claim requires the
`NO_SOURCE_AVAILABLE.txt` placeholder to be written and the outcome to be
`Skipped`; the code writes no placeholder and returns `False` (counted as
Failed by the driver) under both policy values. -/
theorem no_source_placeholder_missing_cex :
    (process_single_paper true noSourceEnv).placeholderWritten = false
    ∧ (process_single_paper true noSourceEnv).success = false
    ∧ (process_single_paper false noSourceEnv).success = false := by decide

/-- C2 (amended): one version's extraction failure only skips that
version — the tex version directories created are exactly the
successfully extracted versions, in order — but the overall outcome is
`Success` if and only if at least ONE version was successfully extracted
(given a non-raising metadata write), NOT merely when the per-version
step ran for at least one version: if every downloaded version fails
extraction the paper returns `False`. -/
theorem extraction_failure_isolation (env : PaperEnv) (policy : Bool)
    (hmeta : env.metadataWriteRaises = false) :
    (process_single_paper policy env).texDirs
        = (downloadedVersions env).filter (fun v => env.extractOk v)
    ∧ ((process_single_paper policy env).success = true
        ↔ (downloadedVersions env).filter (fun v => env.extractOk v) ≠ []) := by
  rw [process_single_paper_spec]
  by_cases hok : (downloadedVersions env).filter (fun v => env.extractOk v) = []
  · simp [hok]
  · simp [hok, hmeta]

/-- Witness for `extraction_failure_isolation`: with `v1` corrupt and
`v2` fine, only `tex/<folder>v2` is created and the paper still
succeeds — the `v1` failure aborted nothing. -/
theorem extraction_failure_isolation_witness :
    (process_single_paper true twoVersionEnv).texDirs = [2]
    ∧ (process_single_paper true twoVersionEnv).success = true := by
  have h := extraction_failure_isolation twoVersionEnv true rfl
  exact ⟨h.1.trans (by decide), h.2.mpr (by decide)⟩

/-- C2 counterexample: one version was downloaded, so the per-version
step ran for it, but its extraction failed — the claim says the outcome
is still `Success`; the code returns `False` because the `tex/` directory
ends up missing/empty. -/
theorem extraction_failure_not_success_cex :
    downloadedVersions oneBadVersionEnv = [1]
    ∧ (process_single_paper true oneBadVersionEnv).success = false := by decide

/-- The stage-2 paper filter (scraper.py lines 464-475): papers whose
`metadata.json` already exists are dropped from `papers_to_process` and
counted as already done. -/
def stage2Filter (hasMetadataFile : String → Bool) (paperIds : List String) :
    List String × Nat :=
  paperIds.foldl
    (fun acc pid => if hasMetadataFile pid then (acc.1, acc.2 + 1)
      else (acc.1 ++ [pid], acc.2)) ([], 0)

/-- The fold underlying `stage2Filter` appends exactly the papers without
a `metadata.json`. -/
theorem stage2Filter_fold (hasMetadataFile : String → Bool) :
    ∀ (ids : List String) (acc : List String × Nat),
      (ids.foldl
        (fun acc pid => if hasMetadataFile pid then (acc.1, acc.2 + 1)
          else (acc.1 ++ [pid], acc.2)) acc).1
        = acc.1 ++ ids.filter (fun pid => !hasMetadataFile pid) := by
  intro ids
  induction ids with
  | nil => intro acc; simp
  | cons pid rest ih =>
    intro acc
    cases hm : hasMetadataFile pid with
    | true => simp [List.foldl_cons, hm, ih]
    | false => simp [List.foldl_cons, hm, ih, List.append_assoc]

/-- C5 (amended): `_process_single_paper` records NOTHING into any
download-skip cache (no such cache exists in it; the collector's copied
count is even discarded), so re-running it re-downloads every version;
what prevents duplicate work on a resumed run is the stage-2 driver
filter, which excludes every paper whose `metadata.json` exists — and a
successful run always writes `metadata.json`. -/
theorem skip_cache_never_recorded (env : PaperEnv) (policy : Bool) :
    (process_single_paper policy env).skipCache = []
    ∧ ((process_single_paper policy env).success = true →
        (process_single_paper policy env).metadataWritten = true)
    ∧ (∀ (hasMetadataFile : String → Bool) (ids : List String) (pid : String),
        hasMetadataFile pid = true → pid ∉ (stage2Filter hasMetadataFile ids).1) := by
  refine ⟨?_, ?_, ?_⟩
  · rw [process_single_paper_spec]
    split_ifs <;> rfl
  · rw [process_single_paper_spec]
    split_ifs <;> simp
  · intro hasMetadataFile ids pid hmeta
    unfold stage2Filter
    rw [stage2Filter_fold]
    simp [List.mem_filter, hmeta]

/-- Witness for `skip_cache_never_recorded`: a successful single-version
run records nothing in any cache but writes `metadata.json`, and the
stage-2 filter then excludes that paper. -/
theorem skip_cache_never_recorded_witness :
    (process_single_paper true goodVersionEnv).skipCache = []
    ∧ (process_single_paper true goodVersionEnv).metadataWritten = true
    ∧ "2402-00001" ∉ (stage2Filter (fun pid => decide (pid = "2402-00001"))
        ["2402-00001", "2402-00002"]).1 := by
  have h := skip_cache_never_recorded goodVersionEnv true
  exact ⟨h.1, h.2.1 (by decide), h.2.2 _ _ _ (by decide)⟩

/-- C5 counterexample: version `v1`'s collection copied three files, and
the run succeeded — the claim requires its tag to be recorded in the
persisted download-skip cache; the set of recorded tags is empty. -/
theorem skip_cache_missing_cex :
    goodVersionEnv.copiedCount 1 = 3
    ∧ (process_single_paper true goodVersionEnv).success = true
    ∧ (process_single_paper true goodVersionEnv).skipCache = []
    ∧ "v1" ∉ (process_single_paper true goodVersionEnv).skipCache := by decide

/-- C8 (amended): a version's scratch directory is removed only along
that version's successful path: the scratch directories still on disk
when `_process_single_paper` returns are exactly those of the versions
whose extraction failed — on every path, including the exception path,
whose handler cleans only the per-paper base temp path (and does so
exactly when the metadata write raises after at least one extracted
version). -/
theorem temp_cleanup_policy (env : PaperEnv) (policy : Bool) :
    (process_single_paper policy env).scratchLeft
      = (downloadedVersions env).filter (fun v => !env.extractOk v)
    ∧ (process_single_paper policy env).baseTempCleaned
      = (env.metadataWriteRaises
          && !((downloadedVersions env).filter (fun v => env.extractOk v)).isEmpty) := by
  rw [process_single_paper_spec]
  by_cases hok : (downloadedVersions env).filter (fun v => env.extractOk v) = []
  · simp [hok]
  · cases hmeta : env.metadataWriteRaises <;>
      simp [hok, hmeta, List.isEmpty_eq_true]

/-- C8 counterexample: version 1 is downloaded and its extraction fails;
its version-scoped scratch directory still exists when the paper's
processing ends, so the temp subtree is NOT always absent at rest. -/
theorem scratch_left_after_failed_extraction_cex :
    downloadedVersions oneBadVersionEnv = [1]
    ∧ (process_single_paper true oneBadVersionEnv).scratchLeft = [1] := by decide

/-! ## The pool driver (`src/scraper.py` 479-523)

`download_and_process` submits one task per paper to a
`ThreadPoolExecutor` and drains them with `as_completed`.  Each task runs
`_process_paper_with_error_handling`, whose counter region (lines
489-501) executes atomically under `process_lock`: outcome `True` bumps
`total_papers` and `successful_papers`, outcome `False` bumps
`total_papers` and `failed_papers` (all three keys exist in the
monitor's stats dict, so the increments really land).  An exception
escaping `_process_single_paper` is caught by the task wrapper (lines
504-506), which logs and returns `False` WITHOUT touching any counter.
Completion order is arbitrary, so a run is modelled as the per-paper
outcomes in their completion order; the lock makes each counter update
atomic, so the aggregate is a fold of atomic steps over that order, and
"regardless of interleaving" is quantified as invariance under
permutations of the completion order. -/

/-- One paper task's outcome as the driver sees it: a normal return of
`_process_single_paper`'s boolean, or an exception caught at the driver
wrapper. -/
inductive PaperOutcome where
  | ok (success : Bool)
  | raises
deriving DecidableEq, Repr

/-- The three driver counters (`total_papers`, `successful_papers`,
`failed_papers` in the monitor's stats dict). -/
structure DriverCounts where
  total_papers : Nat
  successful_papers : Nat
  failed_papers : Nat
deriving DecidableEq, Repr

/-- One completed task's locked counter update (scraper.py 489-501);
the exception path (504-506) bypasses the counters entirely. -/
def driverStep (c : DriverCounts) : PaperOutcome → DriverCounts
  | .ok true => ⟨c.total_papers + 1, c.successful_papers + 1, c.failed_papers⟩
  | .ok false => ⟨c.total_papers + 1, c.successful_papers, c.failed_papers + 1⟩
  | .raises => c

/-- Aggregate counters after all tasks completed in the given order. -/
def runAll (outcomes : List PaperOutcome) : DriverCounts :=
  outcomes.foldl driverStep ⟨0, 0, 0⟩

/-- The value each paper's future yields (`future.result()`): the
returned boolean, or `False` from the wrapper's exception path.  Every
submitted paper yields a value — a raise aborts no sibling. -/
def runResults (outcomes : List PaperOutcome) : List Bool :=
  outcomes.map (fun o => match o with | .ok b => b | .raises => false)

/-- The task returned normally. -/
def isOkOutcome : PaperOutcome → Bool
  | .ok _ => true
  | .raises => false

/-- The task returned `True`. -/
def isSuccessOutcome : PaperOutcome → Bool
  | .ok true => true
  | _ => false

/-- The task returned `False`. -/
def isFailedOutcome : PaperOutcome → Bool
  | .ok false => true
  | _ => false

/-- `runAll` counts exactly the normally-returning outcomes. -/
theorem runAll_counts :
    ∀ (outcomes : List PaperOutcome) (c : DriverCounts),
      outcomes.foldl driverStep c =
        ⟨c.total_papers + outcomes.countP isOkOutcome,
         c.successful_papers + outcomes.countP isSuccessOutcome,
         c.failed_papers + outcomes.countP isFailedOutcome⟩ := by
  intro outcomes
  induction outcomes with
  | nil => intro c; simp [List.countP_nil]
  | cons o rest ih =>
    intro c
    cases o with
    | ok b =>
      cases b <;>
        simp [List.foldl_cons, driverStep, ih, List.countP_cons, isOkOutcome,
          isSuccessOutcome, isFailedOutcome, Nat.add_comm, Nat.add_assoc,
          Nat.add_left_comm]
    | raises =>
      simp [List.foldl_cons, driverStep, ih, List.countP_cons, isOkOutcome,
        isSuccessOutcome, isFailedOutcome]

/-- Every counted outcome is a success or a failure, exclusively. -/
theorem countP_success_add_failed :
    ∀ (outcomes : List PaperOutcome),
      outcomes.countP isSuccessOutcome + outcomes.countP isFailedOutcome
        = outcomes.countP isOkOutcome := by
  intro outcomes
  induction outcomes with
  | nil => rfl
  | cons o rest ih =>
    cases o with
    | ok b =>
      cases b <;>
        · simp [List.countP_cons, isOkOutcome, isSuccessOutcome, isFailedOutcome]
          omega
    | raises =>
      simp [List.countP_cons, isOkOutcome, isSuccessOutcome, isFailedOutcome, ih]

/-- C9 (amended): the aggregate counters are invariant under any
permutation of the completion order (the lock serializes the updates, so
no update is lost); every submitted paper yields exactly one future
result and a raising task aborts no sibling (the result sequence around
a raise is the siblings' results with `False` in the raising slot); but
the counters total only the normally-returning papers —
`succeeded + failed = total = count of non-raising papers` — so a paper
whose orchestrator raises is caught and isolated yet NOT counted as
`Failed` (nor into `total_papers`). -/
theorem driver_aggregation (outcomes outcomes2 : List PaperOutcome)
    (hperm : outcomes.Perm outcomes2) :
    runAll outcomes = runAll outcomes2
    ∧ (runResults outcomes).length = outcomes.length
    ∧ (runAll outcomes).total_papers = outcomes.countP isOkOutcome
    ∧ (runAll outcomes).successful_papers + (runAll outcomes).failed_papers
        = (runAll outcomes).total_papers
    ∧ (∀ (pre post : List PaperOutcome),
        runResults (pre ++ .raises :: post)
          = runResults pre ++ false :: runResults post) := by
  refine ⟨?_, ?_, ?_, ?_, ?_⟩
  · unfold runAll
    rw [runAll_counts, runAll_counts, hperm.countP_eq isOkOutcome,
      hperm.countP_eq isSuccessOutcome, hperm.countP_eq isFailedOutcome]
  · unfold runResults
    exact List.length_map _ _
  · unfold runAll
    rw [runAll_counts]
    simp
  · unfold runAll
    rw [runAll_counts]
    simpa using countP_success_add_failed outcomes
  · intro pre post
    unfold runResults
    simp

/-- Witness for `driver_aggregation` on a concrete four-paper run and a
reordering of its completions. -/
theorem driver_aggregation_witness :
    runAll [.ok true, .raises, .ok false, .ok true]
      = runAll [.ok false, .ok true, .ok true, .raises]
    ∧ (runAll [PaperOutcome.ok true, .raises, .ok false, .ok true]).total_papers = 3
    ∧ runResults [.ok true, .raises, .ok false, .ok true]
      = [true, false, false, true] := by
  have h := driver_aggregation [.ok true, .raises, .ok false, .ok true]
    [.ok false, .ok true, .ok true, .raises] (by decide)
  exact ⟨h.1, h.2.2.1.trans (by decide), by decide⟩

/-- C9 counterexample: a run of two papers where the first one's
orchestrator raises.  The raise is caught (its future yields `False`)
and the sibling completes, but the aggregate counters record only one
paper: `total_papers = 1` (not 2) and `failed_papers = 0` — the raising
paper is NOT counted as `Failed`, contradicting the claim. -/
theorem driver_raise_not_counted_cex :
    runResults [.raises, .ok true] = [false, true]
    ∧ runAll [PaperOutcome.raises, .ok true] = ⟨1, 1, 0⟩ := by decide
